import Mathlib

/-!
# Verification of the payments/tasks realtime-sync layer

Shallow embedding of the client-side synchronization logic of the
project-tracking dashboard: the scoped fetch (`loadData` / `fetchPayments`),
the realtime change-event subscription of `PaymentsPage` (which registers
handlers only for `INSERT` and `DELETE` postgres_changes events), and the
mutation handlers of `PaymentList` (`handleDelete`, `generateInvoice`,
`handlePaymentCompleted`) and `TasksPage` (`handleAddTask`).

Timestamps (JS `Date`) are modelled as `Nat` milliseconds; statuses and ids
are strings, mirroring the TS string enums; `undefined`-able fields are
`Option`.  Each `async` handler is split into an issue phase (the code that
runs before its first `await`, returning the new component state and the
backend call it starts, if any) and a resolve phase (the code that runs once
the awaited backend response arrives).
-/

namespace PTS

/-- Domain payment record, the shape produced by the `formattedPayments`
mapping in `PaymentList.loadData` / `PaymentsPage.fetchPayments`. -/
structure Payment where
  id : String
  taskId : String
  clientId : String
  amount : Int
  status : String
  dueDate : Nat
  invoiceNumber : Option String
  invoicedAt : Option Nat
  receivedAt : Option Nat
  createdAt : Nat
  updatedAt : Nat
  notes : Option String
  deriving DecidableEq

/-- Raw backend row for the `payments` table (snake_case columns). -/
structure RawPayment where
  id : String
  task_id : String
  client_id : String
  amount : Int
  status : String
  due_date : Nat
  invoice_number : Option String
  invoiced_at : Option Nat
  received_at : Option Nat
  created_at : Nat
  updated_at : Nat
  notes : Option String
  deriving DecidableEq

/-- The raw-row-to-domain mapping applied to every fetched row and to every
realtime payload (`data.map((p) => ({ id: p.id, ... }))`). -/
def formatPayment (p : RawPayment) : Payment :=
  { id := p.id
    taskId := p.task_id
    clientId := p.client_id
    amount := p.amount
    status := p.status
    dueDate := p.due_date
    invoiceNumber := p.invoice_number
    invoicedAt := p.invoiced_at
    receivedAt := p.received_at
    createdAt := p.created_at
    updatedAt := p.updated_at
    notes := p.notes }

/-- The viewer, as read from `useAuth()`: `isAdmin = user?.role === 'admin'`
and `clientId = user?.app_metadata?.clientId` (possibly `undefined`). -/
structure Viewer where
  isAdmin : Bool
  clientId : Option String
  deriving DecidableEq

/-- The status allow-list `['invoiced', 'overdue', 'pending']` used by the
non-admin fetch query (`.in('status', ...)`). -/
def statusAllowed (s : String) : Bool :=
  s == "invoiced" || s == "overdue" || s == "pending"

/-- The scope predicate of the non-admin fetch query: admin sees everything;
a non-admin viewer sees rows with `client_id = clientId` and status in the
allow-list.  (A non-admin viewer with no `clientId` gets no filter at all in
the code; that case is handled by `runPaymentsQuery`, not here.) -/
def scopePred (v : Viewer) (p : Payment) : Bool :=
  v.isAdmin || (v.clientId == some p.clientId && statusAllowed p.status)

/-- The check the realtime `INSERT` handler (and `handlePaymentSaved`)
applies before merging: `isAdmin || newPayment.clientId === clientId`.
Note it does not look at the status. -/
def insertCheck (v : Viewer) (p : Payment) : Bool :=
  v.isAdmin || v.clientId == some p.clientId

/-- A realtime change event from the `payments_changes` channel.  The
channel registers handlers only for `INSERT` and `DELETE`; `updated` is
included because the transport can deliver `UPDATE` events, which this
subscription simply does not listen to. -/
inductive ChangeEvent where
  | inserted (p : Payment)
  | updated (p : Payment)
  | deleted (id : String)
  deriving DecidableEq

/-- The key of the record an event concerns. -/
def eventKey : ChangeEvent → String
  | .inserted p => p.id
  | .updated p => p.id
  | .deleted i => i

/-- One step of the `payments_changes` subscription of `PaymentsPage`:
`INSERT` prepends after filtering out the key (when the client check
passes); `DELETE` filters the key out; `UPDATE` has no registered handler,
so it leaves the state untouched. -/
def applyEvent (v : Viewer) (e : ChangeEvent) (c : List Payment) : List Payment :=
  match e with
  | .inserted p =>
      if insertCheck v p then p :: c.filter (fun q => q.id != p.id) else c
  | .updated _ => c
  | .deleted i => c.filter (fun q => q.id != i)

/-- Folding a whole sequence of events into the collection, in arrival
order. -/
def applyEvents (v : Viewer) (es : List ChangeEvent) (c : List Payment) : List Payment :=
  es.foldl (fun acc e => applyEvent v e acc) c

/-- The last event of the sequence concerning key `k`, if any. -/
def lastEventFor (k : String) (es : List ChangeEvent) : Option ChangeEvent :=
  (es.filter (fun e => eventKey e == k)).getLast?

/-- Number of entries of the collection carrying key `k`. -/
def countKey (k : String) (c : List Payment) : Nat :=
  c.countP (fun p => p.id == k)

/-- A concrete payment used in counterexamples and witnesses. -/
def samplePayment : Payment :=
  { id := "t1"
    taskId := "task1"
    clientId := "c1"
    amount := 100
    status := "progress"
    dueDate := 0
    invoiceNumber := none
    invoicedAt := none
    receivedAt := none
    createdAt := 0
    updatedAt := 0
    notes := none }

/-- The scenario's updated record: same key, now owned by client c2. -/
def samplePaymentMoved : Payment :=
  { samplePayment with clientId := "c2" }

/-- The non-admin viewer scoped to client c1. -/
def sampleViewer : Viewer :=
  { isAdmin := false, clientId := some "c1" }

/-- An admin viewer. -/
def adminViewer : Viewer :=
  { isAdmin := true, clientId := none }

/-- A row of the `clients` table as selected by loadData (`select('id, name')`). -/
structure ClientRef where
  id : String
  name : String
  deriving DecidableEq

/-- A row of the `tasks` table as selected by loadData (`select('id, title')`). -/
structure TaskRef where
  id : String
  title : String
  deriving DecidableEq

/-- Domain task record, the shape handled by `TasksPage`. -/
structure Task where
  id : String
  title : String
  clientId : String
  description : String
  status : String
  estimatedHours : Int
  estimatedCost : Int
  actualHours : Option Int
  actualCost : Option Int
  project : String
  createdAt : Nat
  updatedAt : Nat
  dueDate : Option Nat
  completedAt : Option Nat
  deriving DecidableEq

/-- Failure modes of a backend interaction: a backend-reported/network
failure, or the client-side `withTimeout` expiry. -/
inductive Err where
  | transportError
  | operationTimedOut
  deriving DecidableEq

/-- The `withTimeout` utility of `PaymentList`: races the wrapped request
against a timer of `timeoutMs` (5000 at every call site).  A backend whose
behavior is `none` never settles, so the timer fires at `timeoutMs` and the
call rejects; a backend settling strictly before the timer wins the race.
The result carries the time at which the call settles.  (The `onCancel`
callback and the `clearTimeout` in the source's `finally` block have no
observable effect on the collection and are not modelled.) -/
def withTimeout {α : Type} (behavior : Option (Nat × α)) (timeoutMs : Nat) :
    Nat × Except Err α :=
  match behavior with
  | some (t, v) => if t < timeoutMs then (t, .ok v) else (timeoutMs, .error .operationTimedOut)
  | none => (timeoutMs, .error .operationTimedOut)

/-- Component state of `PaymentList` (the parts the claims talk about). -/
structure PLState where
  payments : List Payment
  clients : List ClientRef
  tasks : List TaskRef
  isLoading : Bool
  isProcessing : Bool
  paymentToDelete : Option String
  deriving DecidableEq

/-- Component state of `TasksPage`. -/
structure TPState where
  tasks : List Task
  isLoading : Bool
  deriving DecidableEq

/-- A backend write started by one of the mutation handlers. -/
inductive BackendCall where
  | deletePayment (id : String)
  | updatePaymentInvoice (id : String) (invoiceNumber : String) (invoicedAt updatedAt : Nat)
  | updatePaymentReceived (id : String) (receivedAt updatedAt : Nat)
  | insertTask (t : Task)
  deriving DecidableEq

/-- The payments query built by `loadData` and `fetchPayments`: for a
non-admin viewer with a client id it adds `.eq('client_id', clientId)` and
`.in('status', ['invoiced', 'overdue', 'pending'])`; an admin — or a
non-admin whose `clientId` is absent — gets the unfiltered table. -/
def runPaymentsQuery (v : Viewer) (table : List RawPayment) : List RawPayment :=
  match v.isAdmin, v.clientId with
  | false, some cid =>
      table.filter (fun r => r.client_id == cid && statusAllowed r.status)
  | _, _ => table

/-- The formatted snapshot `loadData` stores with `setPayments` on fetch
success. -/
def fetchedPayments (v : Viewer) (table : List RawPayment) : List Payment :=
  (runPaymentsQuery v table).map formatPayment

/-- The whole `loadData` flow of `PaymentList`, driven by the behaviors of
the three backend queries (`none` = the query never settles; `some (t, e)` =
it settles at time `t`, with `e = some err` when supabase reports an error).
Returns the final component state, the total elapsed time, and the error
the `catch` block receives, if any.  Payments are stored before the clients
query is awaited, clients before the tasks query, mirroring the sequential
`await`s; `finally` clears `isLoading` on every path. -/
def loadData (v : Viewer) (table : List RawPayment) (ctable : List ClientRef)
    (ttable : List TaskRef) (pb cb tb : Option (Nat × Option Err)) (s : PLState) :
    PLState × Nat × Option Err :=
  let s1 := { s with isLoading := true }
  match withTimeout pb 5000 with
  | (t1, .error e) => ({ s1 with isLoading := false }, t1, some e)
  | (t1, .ok pr) =>
    match pr with
    | some e => ({ s1 with isLoading := false }, t1, some e)
    | none =>
      let s2 := { s1 with payments := fetchedPayments v table }
      match withTimeout cb 5000 with
      | (t2, .error e) => ({ s2 with isLoading := false }, t1 + t2, some e)
      | (t2, .ok cr) =>
        match cr with
        | some e => ({ s2 with isLoading := false }, t1 + t2, some e)
        | none =>
          let s3 := { s2 with clients := ctable }
          match withTimeout tb 5000 with
          | (t3, .error e) => ({ s3 with isLoading := false }, t1 + t2 + t3, some e)
          | (t3, .ok tr) =>
            match tr with
            | some e => ({ s3 with isLoading := false }, t1 + t2 + t3, some e)
            | none => ({ s3 with tasks := ttable, isLoading := false }, t1 + t2 + t3, none)

/-- Issue phase of `handleDelete`: with no `paymentToDelete` it only closes
the dialog; otherwise it sets `isProcessing` and starts the backend delete.
Nothing is removed from `payments` at this point. -/
def handleDeleteIssue (s : PLState) : PLState × Option BackendCall :=
  match s.paymentToDelete with
  | none => (s, none)
  | some pid => ({ s with isProcessing := true }, some (.deletePayment pid))

/-- Resolve phase of `handleDelete`: only a successful backend delete
filters the entry out of `payments`; the `finally` block resets
`isProcessing` and `paymentToDelete` on both paths. -/
def handleDeleteResolve (pid : String) (r : Except Err Unit) (s : PLState) : PLState :=
  match r with
  | .ok _ =>
      { s with payments := s.payments.filter (fun p => p.id != pid),
               isProcessing := false, paymentToDelete := none }
  | .error _ => { s with isProcessing := false, paymentToDelete := none }

/-- The full `handleDelete` flow for a given backend result. -/
def runHandleDelete (s : PLState) (r : Except Err Unit) : PLState :=
  match handleDeleteIssue s with
  | (s1, none) => s1
  | (s1, some (.deletePayment pid)) => handleDeleteResolve pid r s1
  | (s1, some _) => s1

/-- The local overlay `generateInvoice` applies on success:
`{ ...p, ...updateData, updatedAt: new Date() }`.  `updateData`'s snake_case
keys (`invoice_number`, `invoiced_at`, `updated_at`) do not coincide with
any camelCase field of the typed `Payment` shape, so the only observable
field changes are `status` (a shared key) and the explicit `updatedAt`. -/
def invoiceOverlay (pid : String) (now : Nat) (c : List Payment) : List Payment :=
  c.map (fun p => if p.id == pid then { p with status := "invoiced", updatedAt := now } else p)

/-- Issue phase of `generateInvoice`: sets `isProcessing`, throws
`Payment not found` (caught locally, `finally` resets the flag) when the id
is absent, otherwise starts the backend update. -/
def generateInvoiceIssue (pid : String) (inv : String) (now : Nat) (s : PLState) :
    PLState × Option BackendCall :=
  match s.payments.find? (fun p => p.id == pid) with
  | none => ({ s with isProcessing := false }, none)
  | some _ => ({ s with isProcessing := true }, some (.updatePaymentInvoice pid inv now now))

/-- Resolve phase of `generateInvoice`. -/
def generateInvoiceResolve (pid : String) (now : Nat) (r : Except Err Unit)
    (s : PLState) : PLState :=
  match r with
  | .ok _ => { s with payments := invoiceOverlay pid now s.payments, isProcessing := false }
  | .error _ => { s with isProcessing := false }

/-- The full `generateInvoice` flow for a given backend result. -/
def runGenerateInvoice (pid : String) (inv : String) (now : Nat) (s : PLState)
    (r : Except Err Unit) : PLState :=
  match generateInvoiceIssue pid inv now s with
  | (s1, none) => s1
  | (s1, some _) => generateInvoiceResolve pid now r s1

/-- The local overlay `handlePaymentCompleted` applies on success; as with
`invoiceOverlay`, only `status` and `updatedAt` of the typed shape change. -/
def receivedOverlay (pid : String) (now : Nat) (c : List Payment) : List Payment :=
  c.map (fun p => if p.id == pid then { p with status := "received", updatedAt := now } else p)

/-- Issue phase of `handlePaymentCompleted`. -/
def paymentCompletedIssue (pid : String) (now : Nat) (s : PLState) :
    PLState × BackendCall :=
  ({ s with isProcessing := true }, .updatePaymentReceived pid now now)

/-- Resolve phase of `handlePaymentCompleted`. -/
def paymentCompletedResolve (pid : String) (now : Nat) (r : Except Err Unit)
    (s : PLState) : PLState :=
  match r with
  | .ok _ => { s with payments := receivedOverlay pid now s.payments, isProcessing := false }
  | .error _ => { s with isProcessing := false }

/-- The full `handlePaymentCompleted` flow for a given backend result. -/
def runPaymentCompleted (pid : String) (now : Nat) (s : PLState)
    (r : Except Err Unit) : PLState :=
  paymentCompletedResolve pid now r (paymentCompletedIssue pid now s).1

/-- Issue phase of `TasksPage.handleAddTask`: the insert is sent first; the
local `tasks` array is untouched until the response arrives. -/
def handleAddTaskIssue (t : Task) (s : TPState) : TPState × BackendCall :=
  (s, .insertTask t)

/-- Resolve phase of `handleAddTask`: on success `setTasks([...tasks,
newTask])` appends the new task; on failure the state is untouched. -/
def handleAddTaskResolve (t : Task) (r : Except Err Unit) (s : TPState) : TPState :=
  match r with
  | .ok _ => { s with tasks := s.tasks ++ [t] }
  | .error _ => s

/-- `PaymentsPage.handlePaymentSaved`: the local save after the add/edit
dialog closes, with the same client check and key-dedup as the realtime
insert handler. -/
def handlePaymentSaved (v : Viewer) (p : Payment) (c : List Payment) : List Payment :=
  if insertCheck v p then p :: c.filter (fun q => q.id != p.id) else c

/-- A click on the `DeleteDialog` Delete button: the button is rendered with
`disabled={isProcessing}`, so while a mutation is in flight the click does
not reach `handleDelete`. -/
def uiDeleteClick (s : PLState) : PLState × Option BackendCall :=
  if s.isProcessing then (s, none) else handleDeleteIssue s

/-- The operations that replace or mutate the payments collection. -/
inductive CollectionOp where
  | fetchDone (formatted : List Payment)
  | mergeEvent (e : ChangeEvent)
  | localSave (p : Payment)
  | localDelete (id : String)
  | invoiceOv (id : String) (now : Nat)
  | receivedOv (id : String) (now : Nat)

/-- Effect of a collection operation on the payments list. -/
def runOp (v : Viewer) (op : CollectionOp) (c : List Payment) : List Payment :=
  match op with
  | .fetchDone f => f
  | .mergeEvent e => applyEvent v e c
  | .localSave p => handlePaymentSaved v p c
  | .localDelete i => c.filter (fun q => q.id != i)
  | .invoiceOv i now => invoiceOverlay i now c
  | .receivedOv i now => receivedOverlay i now c

/-- The collection holds at most one entry per key. -/
def nodupKeys (c : List Payment) : Prop :=
  (c.map (fun p => p.id)).Nodup

/-- Key-uniqueness of an operation's own input: a fetched snapshot must have
unique primary keys (the backend's invariant); other operations carry none. -/
def opInputNodup : CollectionOp → Prop
  | .fetchDone f => nodupKeys f
  | _ => True

/-- The record is owned by the viewer's client. -/
def clientMatch (v : Viewer) (p : Payment) : Prop :=
  v.clientId = some p.clientId

/-- Client-ownership of an operation's own input, needed only for a fetched
snapshot (which replaces the collection wholesale). -/
def opClientMatch (v : Viewer) : CollectionOp → Prop
  | .fetchDone f => ∀ r ∈ f, clientMatch v r
  | _ => True

/-- A backend row owned by client c1 with an in-scope status. -/
def sampleRaw : RawPayment :=
  { id := "t1"
    task_id := "task1"
    client_id := "c1"
    amount := 100
    status := "invoiced"
    due_date := 0
    invoice_number := none
    invoiced_at := none
    received_at := none
    created_at := 0
    updated_at := 0
    notes := none }

/-- A payment owned by client c1 whose status is outside the non-admin
allow-list. -/
def sampleDuePayment : Payment :=
  { samplePayment with id := "t2", status := "due" }

/-- A `PaymentList` state about to delete `t1`, with no mutation in
flight. -/
def sampleDeleteState : PLState :=
  { payments := [samplePayment]
    clients := []
    tasks := []
    isLoading := false
    isProcessing := false
    paymentToDelete := some "t1" }

/-- A `PaymentList` state with a mutation in flight (`isProcessing`) and a
delete target selected. -/
def processingState : PLState :=
  { sampleDeleteState with isProcessing := true }

/-- What `ProtectedRoute` renders. -/
inductive RouteOutput where
  | spinner
  | redirectLogin
  | redirectUnauthorized
  | children
  deriving DecidableEq

/-- The authenticated user as `ProtectedRoute` sees it; `role` may be
absent at runtime even though the TS type declares it. -/
structure AuthUser where
  role : Option String
  deriving DecidableEq

/-- The default `allowedRoles = ['admin', 'client']`. -/
def defaultAllowedRoles : List String := ["admin", "client"]

/-- `ProtectedRoute`: the spinner is shown while `isLoading || (user &&
!user.role)`; then no user redirects to /login; then a role outside
`allowedRoles` redirects to /unauthorized; otherwise the children render. -/
def protectedRoute (allowedRoles : List String) (isLoading : Bool)
    (user : Option AuthUser) : RouteOutput :=
  if isLoading || (match user with | some u => u.role.isNone | none => false) then
    .spinner
  else
    match user with
    | none => .redirectLogin
    | some u =>
        if (match u.role with | some r => allowedRoles.contains r | none => false) then
          .children
        else
          .redirectUnauthorized

end PTS

namespace PTS

theorem applyEvents_append (v : Viewer) (es : List ChangeEvent) (e : ChangeEvent)
    (c : List Payment) :
    applyEvents v (es ++ [e]) c = applyEvent v e (applyEvents v es c) := by
  simp [applyEvents, List.foldl_append]

theorem lastEventFor_append (k : String) (es : List ChangeEvent) (e : ChangeEvent) :
    lastEventFor k (es ++ [e]) =
      if eventKey e == k then some e else lastEventFor k es := by
  by_cases h : eventKey e == k
  · simp [lastEventFor, List.filter_append, h]
  · simp [lastEventFor, List.filter_append, h]

theorem countKey_cons (k : String) (p : Payment) (c : List Payment) :
    countKey k (p :: c) = countKey k c + (if p.id == k then 1 else 0) := by
  simp [countKey, List.countP_cons]

theorem countKey_filter_ne (k j : String) (c : List Payment) (h : j ≠ k) :
    countKey k (c.filter (fun p => p.id != j)) = countKey k c := by
  unfold countKey
  rw [List.countP_filter]
  refine List.countP_congr ?_
  intro x _
  simp only [Bool.and_eq_true, bne_iff_ne, ne_eq, beq_iff_eq]
  constructor
  · rintro ⟨hx, _⟩
    exact hx
  · intro hx
    refine ⟨hx, ?_⟩
    rw [hx]
    exact Ne.symm h

theorem countKey_filter_self (k : String) (c : List Payment) :
    countKey k (c.filter (fun p => p.id != k)) = 0 := by
  unfold countKey
  rw [List.countP_filter, List.countP_eq_zero]
  intro a _
  simp

theorem countKey_applyEvent_ne (v : Viewer) (e : ChangeEvent) (c : List Payment)
    (k : String) (h : eventKey e ≠ k) :
    countKey k (applyEvent v e c) = countKey k c := by
  match e with
  | .inserted p =>
      simp only [eventKey] at h
      by_cases hc : insertCheck v p
      · have h2 : (p.id == k) = false := by simpa using h
        have he : applyEvent v (.inserted p) c = p :: c.filter (fun q => q.id != p.id) := by
          simp [applyEvent, hc]
        rw [he, countKey_cons, countKey_filter_ne k p.id c h, h2]
        simp
      · simp [applyEvent, hc]
  | .updated p => simp [applyEvent]
  | .deleted i =>
      simp only [eventKey] at h
      simpa [applyEvent] using countKey_filter_ne k i c h

end PTS

namespace PTS

/-- C8: applying the same Inserted event twice yields the same collection as
applying it once — the handler is idempotent (the unconditional overwrite
`[newPayment, ...prev.filter(p => p.id !== newPayment.id)]` reproduces
itself, and the out-of-scope no-op is trivially idempotent). -/
theorem inserted_event_idempotent (v : Viewer) (p : Payment) (c : List Payment) :
    applyEvent v (.inserted p) (applyEvent v (.inserted p) c) =
      applyEvent v (.inserted p) c := by
  by_cases hc : insertCheck v p
  · simp [applyEvent, hc, List.filter_filter]
  · simp [applyEvent, hc]

/-- C1 fails as stated: an Updated event has no registered handler on the
payments_changes channel, so a key whose last event is an in-scope Updated
ends with zero entries, not one.  Concretely: one in-scope Updated event on
an empty collection leaves it empty. -/
theorem merge_convergence_counterexample :
    lastEventFor "t1" [ChangeEvent.updated samplePayment] =
        some (ChangeEvent.updated samplePayment) ∧
    scopePred adminViewer samplePayment = true ∧
    countKey "t1" (applyEvents adminViewer [ChangeEvent.updated samplePayment] []) = 0 := by
  refine ⟨?_, ?_, ?_⟩ <;> rfl

/-- C1 (amended): for every finite event sequence, a key whose last event is
an Inserted carrying a record that passes the scope predicate ends with
exactly one entry, and a key whose last event is Deleted ends with no entry;
Updated events are not handled by the subscription and never affect the
collection. -/
theorem merge_convergence (v : Viewer) (c : List Payment) (es : List ChangeEvent)
    (k : String) :
    (∀ p, lastEventFor k es = some (.inserted p) → scopePred v p = true →
        countKey k (applyEvents v es c) = 1) ∧
    (lastEventFor k es = some (.deleted k) →
        countKey k (applyEvents v es c) = 0) := by
  induction es using List.reverseRecOn with
  | nil =>
      constructor
      · intro p hp
        simp [lastEventFor] at hp
      · intro hp
        simp [lastEventFor] at hp
  | append_singleton es e ih =>
      by_cases hk : eventKey e = k
      · constructor
        · intro p hp hscope
          rw [lastEventFor_append] at hp
          simp only [hk, beq_self_eq_true, if_true] at hp
          cases hp
          have hid : p.id = k := hk
          have hic : insertCheck v p = true := by
            simp only [scopePred, Bool.or_eq_true, Bool.and_eq_true] at hscope
            simp only [insertCheck, Bool.or_eq_true]
            rcases hscope with h1 | ⟨h2, _⟩
            · exact Or.inl h1
            · exact Or.inr h2
          rw [applyEvents_append]
          have he : applyEvent v (.inserted p) (applyEvents v es c) =
              p :: (applyEvents v es c).filter (fun q => q.id != p.id) := by
            simp [applyEvent, hic]
          rw [he, countKey_cons]
          subst hid
          rw [countKey_filter_self]
          simp
        · intro hp
          rw [lastEventFor_append] at hp
          simp only [hk, beq_self_eq_true, if_true] at hp
          cases hp
          rw [applyEvents_append]
          exact countKey_filter_self k (applyEvents v es c)
      · have hb : (eventKey e == k) = false := by simpa using hk
        constructor
        · intro p hp hscope
          rw [lastEventFor_append, hb] at hp
          simp only [Bool.false_eq_true, if_false] at hp
          rw [applyEvents_append, countKey_applyEvent_ne v e _ k hk]
          exact ih.1 p hp hscope
        · intro hp
          rw [lastEventFor_append, hb] at hp
          simp only [Bool.false_eq_true, if_false] at hp
          rw [applyEvents_append, countKey_applyEvent_ne v e _ k hk]
          exact ih.2 hp

/-- Witness for the amended C1 at concrete inputs: one in-scope insert gives
exactly one entry, and insert followed by delete gives none. -/
theorem merge_convergence_witness :
    countKey "t1" (applyEvents adminViewer [ChangeEvent.inserted samplePayment] []) = 1 ∧
    countKey "t1" (applyEvents adminViewer
      [ChangeEvent.inserted samplePayment, ChangeEvent.deleted "t1"] []) = 0 :=
  ⟨(merge_convergence adminViewer [] [ChangeEvent.inserted samplePayment] "t1").1
      samplePayment (by decide) (by decide),
   (merge_convergence adminViewer []
      [ChangeEvent.inserted samplePayment, ChangeEvent.deleted "t1"] "t1").2 (by decide)⟩

/-- C2 fails as stated: the spec's scenario expects an out-of-scope Updated
event to act as an implicit delete and empty the collection, but the
subscription registers no Updated handler, so the stale entry survives. -/
theorem implicit_delete_counterexample :
    applyEvent sampleViewer (.updated samplePaymentMoved) [samplePayment] =
        [samplePayment] ∧
    [samplePayment] ≠ ([] : List Payment) :=
  ⟨rfl, List.cons_ne_nil _ _⟩

/-- C2 (amended): events whose record fails the scope check never remove an
existing entry — Updated events are ignored outright, and an Inserted event
failing the client check is a no-op; in the spec's scenario the record stays
in the collection. -/
theorem out_of_scope_events_are_noops (v : Viewer) (p : Payment) (c : List Payment) :
    applyEvent v (.updated p) c = c ∧
    (insertCheck v p = false → applyEvent v (.inserted p) c = c) := by
  constructor
  · rfl
  · intro h
    simp [applyEvent, h]

/-- Witness for the amended C2: the scenario record, now owned by client c2,
fails the non-admin client check and its insert is a no-op. -/
theorem out_of_scope_events_are_noops_witness :
    insertCheck sampleViewer samplePaymentMoved = false ∧
    applyEvent sampleViewer (.inserted samplePaymentMoved) [samplePayment] =
      [samplePayment] :=
  ⟨by decide,
   (out_of_scope_events_are_noops sampleViewer samplePaymentMoved [samplePayment]).2
     (by decide)⟩

theorem nodupKeys_filter (f : Payment → Bool) (c : List Payment) (hc : nodupKeys c) :
    nodupKeys (c.filter f) := by
  unfold nodupKeys at hc ⊢
  exact List.Nodup.sublist ((c.filter_sublist).map (fun p => p.id)) hc

theorem nodupKeys_insert (p : Payment) (c : List Payment) (hc : nodupKeys c) :
    nodupKeys (p :: c.filter (fun q => q.id != p.id)) := by
  unfold nodupKeys at hc ⊢
  rw [List.map_cons, List.nodup_cons]
  constructor
  · intro hmem
    rw [List.mem_map] at hmem
    obtain ⟨q, hq, hqid⟩ := hmem
    rw [List.mem_filter] at hq
    rw [hqid] at hq
    simp at hq
  · exact nodupKeys_filter _ c hc

theorem nodupKeys_overlay (g : Payment → Payment) (hg : ∀ p, (g p).id = p.id)
    (c : List Payment) (hc : nodupKeys c) : nodupKeys (c.map g) := by
  unfold nodupKeys at hc ⊢
  rw [List.map_map]
  have hfg : ((fun p : Payment => p.id) ∘ g) = (fun p : Payment => p.id) := by
    funext x
    exact hg x
  rw [hfg]
  exact hc

/-- C9: every operation that mutates the collection — replacing it with a
fetched snapshot (whose primary keys are unique), merging a realtime event,
the local save, the local delete, and the two local status overlays — keeps
at most one entry per key. -/
theorem collection_at_most_one_per_key (v : Viewer) (op : CollectionOp)
    (c : List Payment) (hc : nodupKeys c) (hop : opInputNodup op) :
    nodupKeys (runOp v op c) := by
  match op with
  | .fetchDone f => exact hop
  | .mergeEvent e =>
      match e with
      | .inserted p =>
          by_cases h : insertCheck v p
          · simpa [runOp, applyEvent, h] using nodupKeys_insert p c hc
          · simpa [runOp, applyEvent, h] using hc
      | .updated p => exact hc
      | .deleted i => exact nodupKeys_filter _ c hc
  | .localSave p =>
      by_cases h : insertCheck v p
      · simpa [runOp, handlePaymentSaved, h] using nodupKeys_insert p c hc
      · simpa [runOp, handlePaymentSaved, h] using hc
  | .localDelete i => exact nodupKeys_filter _ c hc
  | .invoiceOv i now =>
      refine nodupKeys_overlay
        (fun p => if p.id == i then { p with status := "invoiced", updatedAt := now } else p)
        ?_ c hc
      intro p
      dsimp only
      split <;> rfl
  | .receivedOv i now =>
      refine nodupKeys_overlay
        (fun p => if p.id == i then { p with status := "received", updatedAt := now } else p)
        ?_ c hc
      intro p
      dsimp only
      split <;> rfl

/-- Witness for C9: merging an insert into a one-element collection keeps
keys unique. -/
theorem collection_at_most_one_per_key_witness :
    nodupKeys (runOp sampleViewer (.mergeEvent (.inserted samplePayment))
      [sampleDuePayment]) :=
  collection_at_most_one_per_key sampleViewer (.mergeEvent (.inserted samplePayment))
    [sampleDuePayment] (by unfold nodupKeys; decide) (by exact trivial)

/-- C3 fails as stated: the realtime INSERT handler checks only
`isAdmin || newPayment.clientId === clientId`, never the status, so an
insert of a client-matching record whose status is outside
`{invoiced, overdue, pending}` lands in a non-admin collection. -/
theorem scope_invariant_counterexample :
    sampleDuePayment ∈ applyEvent sampleViewer (.inserted sampleDuePayment) [] ∧
    scopePred sampleViewer sampleDuePayment = false := by
  decide

/-- C3 (amended): after the initial fetch every record in a non-admin
collection satisfies the full scope predicate (client match and allowed
status), but the merge and local operations preserve only the client-match
half: the status may leave the allowed subset. -/
theorem scope_invariant_amended (v : Viewer) :
    (∀ cid table p, v.isAdmin = false → v.clientId = some cid →
        p ∈ fetchedPayments v table → scopePred v p = true) ∧
    (∀ op c q, v.isAdmin = false → (∀ r ∈ c, clientMatch v r) → opClientMatch v op →
        q ∈ runOp v op c → clientMatch v q) := by
  constructor
  · intro cid table p hadm hcid hp
    unfold fetchedPayments runPaymentsQuery at hp
    rw [hadm, hcid] at hp
    rw [List.mem_map] at hp
    obtain ⟨r, hr, rfl⟩ := hp
    rw [List.mem_filter, Bool.and_eq_true] at hr
    obtain ⟨-, hcl, hst⟩ := hr
    unfold scopePred formatPayment
    rw [hadm, hcid]
    simp only [Bool.false_or, Bool.and_eq_true]
    refine ⟨?_, hst⟩
    rw [beq_iff_eq] at hcl ⊢
    rw [hcl]
  · intro op c q hadm hc hop hq
    match op with
    | .fetchDone f => exact hop q hq
    | .mergeEvent e =>
        match e with
        | .inserted p =>
            by_cases h : insertCheck v p
            · simp only [runOp, applyEvent, h, if_true] at hq
              rcases List.mem_cons.mp hq with rfl | hq2
              · unfold insertCheck at h
                rw [hadm] at h
                simp only [Bool.false_or, beq_iff_eq] at h
                exact h
              · exact hc q (List.mem_of_mem_filter hq2)
            · simp only [runOp, applyEvent, h, if_false] at hq
              exact hc q hq
        | .updated p => exact hc q hq
        | .deleted i => exact hc q (List.mem_of_mem_filter hq)
    | .localSave p =>
        by_cases h : insertCheck v p
        · simp only [runOp, handlePaymentSaved, h, if_true] at hq
          rcases List.mem_cons.mp hq with rfl | hq2
          · unfold insertCheck at h
            rw [hadm] at h
            simp only [Bool.false_or, beq_iff_eq] at h
            exact h
          · exact hc q (List.mem_of_mem_filter hq2)
        · simp only [runOp, handlePaymentSaved, h, if_false] at hq
          exact hc q hq
    | .localDelete i => exact hc q (List.mem_of_mem_filter hq)
    | .invoiceOv i now =>
        simp only [runOp, invoiceOverlay, List.mem_map] at hq
        obtain ⟨r, hr, rfl⟩ := hq
        have hcr := hc r hr
        unfold clientMatch at hcr ⊢
        split <;> exact hcr
    | .receivedOv i now =>
        simp only [runOp, receivedOverlay, List.mem_map] at hq
        obtain ⟨r, hr, rfl⟩ := hq
        have hcr := hc r hr
        unfold clientMatch at hcr ⊢
        split <;> exact hcr

/-- Witness for the amended C3: a fetched in-scope row passes the scope
predicate, and a merged insert matches the viewer's client. -/
theorem scope_invariant_amended_witness :
    scopePred sampleViewer (formatPayment sampleRaw) = true ∧
    clientMatch sampleViewer samplePayment :=
  ⟨(scope_invariant_amended sampleViewer).1 "c1" [sampleRaw] (formatPayment sampleRaw)
      (by decide) (by decide) (by decide),
   (scope_invariant_amended sampleViewer).2 (.mergeEvent (.inserted samplePayment)) []
      samplePayment (by decide)
      (by intro r hr; exact absurd hr (List.not_mem_nil r))
      (by exact trivial) (by decide)⟩

/-- C4 fails as stated: `handleDelete` awaits the backend delete before
touching the collection — at issue time the backend call has been started
yet the entry is still present, so the mutation is not optimistic. -/
theorem optimistic_mutation_counterexample :
    (handleDeleteIssue sampleDeleteState).2 = some (BackendCall.deletePayment "t1") ∧
    samplePayment ∈ (handleDeleteIssue sampleDeleteState).1.payments := by
  decide

/-- C4 (amended): each of the three mutation entry points issues the backend
write first and leaves the visible collection unchanged at issue time; the
local mutation (remove for delete, overlay for update, append for create) is
applied only after observing backend success. -/
theorem mutation_applied_only_after_ack (s : PLState) (ts : TPState)
    (pid inv : String) (now : Nat) (t : Task) :
    (handleDeleteIssue s).1.payments = s.payments ∧
    (generateInvoiceIssue pid inv now s).1.payments = s.payments ∧
    (handleAddTaskIssue t ts).1.tasks = ts.tasks ∧
    (handleDeleteResolve pid (.ok ()) s).payments
        = s.payments.filter (fun p => p.id != pid) ∧
    (generateInvoiceResolve pid now (.ok ()) s).payments
        = invoiceOverlay pid now s.payments ∧
    (handleAddTaskResolve t (.ok ()) ts).tasks = ts.tasks ++ [t] := by
  refine ⟨?_, ?_, rfl, rfl, rfl, rfl⟩
  · unfold handleDeleteIssue
    cases s.paymentToDelete <;> rfl
  · unfold generateInvoiceIssue
    cases s.payments.find? (fun p => p.id == pid) <;> rfl

/-- C5: an update or delete flow that ends in backend failure (transport
error or timeout) leaves every entry of the collection — the mutated key and
all others — exactly as before the mutation. -/
theorem state_unchanged_on_error (s : PLState) (pid inv : String) (now : Nat)
    (e : Err) :
    (runHandleDelete s (.error e)).payments = s.payments ∧
    (runGenerateInvoice pid inv now s (.error e)).payments = s.payments ∧
    (runPaymentCompleted pid now s (.error e)).payments = s.payments := by
  refine ⟨?_, ?_, rfl⟩
  · unfold runHandleDelete handleDeleteIssue
    cases s.paymentToDelete <;> rfl
  · unfold runGenerateInvoice generateInvoiceIssue
    cases s.payments.find? (fun p => p.id == pid) <;> rfl

/-- C6: a load against a backend that never settles fails with the timeout
error at 5000ms (hence at or after the 5000ms timeout) and stores no record
in the collection. -/
theorem fetch_timeout_adds_nothing (v : Viewer) (table : List RawPayment)
    (ctable : List ClientRef) (ttable : List TaskRef)
    (cb tb : Option (Nat × Option Err)) (s : PLState) :
    (loadData v table ctable ttable none cb tb s).1.payments = s.payments ∧
    5000 ≤ (loadData v table ctable ttable none cb tb s).2.1 ∧
    (loadData v table ctable ttable none cb tb s).2.2 = some Err.operationTimedOut := by
  refine ⟨rfl, ?_, rfl⟩
  exact Nat.le_refl 5000

/-- C7 fails as stated: no MutationInProgress rejection exists — invoking
`handleDelete` directly while a mutation is already in flight
(`isProcessing = true`) starts a second backend delete instead of being
rejected. -/
theorem mutation_in_progress_counterexample :
    processingState.isProcessing = true ∧
    (handleDeleteIssue processingState).2 = some (BackendCall.deletePayment "t1") := by
  decide

/-- C7 (amended): while any mutation on the list is in flight the UI
disables every mutation trigger, so a second request cannot be dispatched
through the UI and the collection is unchanged; the guard is the single
list-wide `isProcessing` flag, not a per-key check, and a directly invoked
handler is not rejected — it leaves the collection unchanged at issue time
but starts a second backend call. -/
theorem in_flight_mutation_guard (s : PLState) (pid : String)
    (h : s.isProcessing = true) (hp : s.paymentToDelete = some pid) :
    uiDeleteClick s = (s, none) ∧
    (handleDeleteIssue s).1.payments = s.payments ∧
    (handleDeleteIssue s).2 = some (BackendCall.deletePayment pid) := by
  refine ⟨?_, ?_, ?_⟩
  · simp [uiDeleteClick, h]
  · unfold handleDeleteIssue
    rw [hp]
  · unfold handleDeleteIssue
    rw [hp]

/-- Witness for the amended C7 at the concrete in-flight state. -/
theorem in_flight_mutation_guard_witness :
    uiDeleteClick processingState = (processingState, none) ∧
    (handleDeleteIssue processingState).1.payments = processingState.payments ∧
    (handleDeleteIssue processingState).2 = some (BackendCall.deletePayment "t1") :=
  in_flight_mutation_guard processingState "t1" rfl rfl

/-- C10 fails as stated: with loading complete (`isLoading = false`), an
authenticated user whose role is unresolved renders the spinner, not the
/unauthorized redirect the claim requires for a role outside
`allowedRoles`. -/
theorem protected_route_counterexample :
    protectedRoute defaultAllowedRoles false (some ⟨none⟩) = RouteOutput.spinner ∧
    RouteOutput.spinner ≠ RouteOutput.redirectUnauthorized := by
  decide

theorem protectedRoute_some_role (allowedRoles : List String) (r : String) :
    protectedRoute allowedRoles false (some ⟨some r⟩) =
      if allowedRoles.contains r then RouteOutput.children
      else RouteOutput.redirectUnauthorized := rfl

/-- C10 (amended): once loading is complete and any authenticated user has a
resolved role, no user redirects to /login, a role outside `allowedRoles`
redirects to /unauthorized, and the children render exactly when a user
exists whose role is allowed; a user with an unresolved role keeps the
loading spinner. -/
theorem protected_route_amended (allowedRoles : List String) (user : Option AuthUser) :
    (user = none → protectedRoute allowedRoles false user = .redirectLogin) ∧
    (∀ u r, user = some u → u.role = some r →
        (protectedRoute allowedRoles false user = .children ↔
          allowedRoles.contains r = true) ∧
        (allowedRoles.contains r = false →
          protectedRoute allowedRoles false user = .redirectUnauthorized)) := by
  constructor
  · intro h
    subst h
    rfl
  · intro u r hu hr
    subst hu
    obtain ⟨urole⟩ := u
    cases hr
    rw [protectedRoute_some_role]
    by_cases hcont : allowedRoles.contains r = true
    · simp [hcont]
    · simp [hcont]

/-- Witness for the amended C10: no user goes to /login, an admin sees the
children, and a role outside the default list goes to /unauthorized. -/
theorem protected_route_amended_witness :
    protectedRoute defaultAllowedRoles false none = RouteOutput.redirectLogin ∧
    protectedRoute defaultAllowedRoles false (some ⟨some "admin"⟩) = RouteOutput.children ∧
    protectedRoute defaultAllowedRoles false (some ⟨some "guest"⟩) =
      RouteOutput.redirectUnauthorized :=
  ⟨(protected_route_amended defaultAllowedRoles none).1 rfl,
   ((protected_route_amended defaultAllowedRoles (some ⟨some "admin"⟩)).2
      ⟨some "admin"⟩ "admin" rfl rfl).1.mpr (by decide),
   ((protected_route_amended defaultAllowedRoles (some ⟨some "guest"⟩)).2
      ⟨some "guest"⟩ "guest" rfl rfl).2 (by decide)⟩

end PTS
